import Mathlib

/-
Verification development for rss_bot.py: a one-shot RSS-to-Telegram notifier.
The Python source is embedded shallowly: dynamic dict lookups become Option
fields, Python truthiness becomes explicit predicates, the network becomes an
oracle of request outcomes, and the state file becomes an explicit FileState.
-/

namespace RssBot

/-- Python truthiness of an optional string: `entry.get(k)` is truthy iff the
key is present and the string is non-empty. -/
def pyTruthy : Option String → Bool
  | none => false
  | some s => s ≠ ""

/-- Python `a or b` on an optional string with a string default:
returns the value when truthy, else the default. -/
def pyOr (o : Option String) (d : String) : String :=
  if pyTruthy o then o.getD "" else d

/-- Python `entry.get(k, d)`: the value when the key is present (even if
empty), else the default. -/
def pyGetD (o : Option String) (d : String) : String := o.getD d

/-! ### SHA-256 (models Python hashlib.sha256, FIPS 180-4)

Implemented over byte lists, words as naturals reduced mod 2^32. -/

def w32 (n : Nat) : Nat := n % 4294967296

def rotr32 (x n : Nat) : Nat := w32 ((x >>> n) ||| (x <<< (32 - n)))

def shr32 (x n : Nat) : Nat := x >>> n

def bigSigma0 (x : Nat) : Nat := (rotr32 x 2) ^^^ (rotr32 x 13) ^^^ (rotr32 x 22)
def bigSigma1 (x : Nat) : Nat := (rotr32 x 6) ^^^ (rotr32 x 11) ^^^ (rotr32 x 25)
def smallSigma0 (x : Nat) : Nat := (rotr32 x 7) ^^^ (rotr32 x 18) ^^^ (shr32 x 3)
def smallSigma1 (x : Nat) : Nat := (rotr32 x 17) ^^^ (rotr32 x 19) ^^^ (shr32 x 10)

def sha256K : List Nat :=
  [1116352408, 1899447441, 3049323471, 3921009573, 961987163,
   1508970993, 2453635748, 2870763221, 3624381080, 310598401,
   607225278, 1426881987, 1925078388, 2162078206, 2614888103,
   3248222580, 3835390401, 4022224774, 264347078, 604807628,
   770255983, 1249150122, 1555081692, 1996064986, 2554220882,
   2821834349, 2952996808, 3210313671, 3336571891, 3584528711,
   113926993, 338241895, 666307205, 773529912, 1294757372,
   1396182291, 1695183700, 1986661051, 2177026350, 2456956037,
   2730485921, 2820302411, 3259730800, 3345764771, 3516065817,
   3600352804, 4094571909, 275423344, 430227734, 506948616,
   659060556, 883997877, 958139571, 1322822218, 1537002063,
   1747873779, 1955562222, 2024104815, 2227730452, 2361852424,
   2428436474, 2756734187, 3204031479, 3329325298]

def sha256H0 : List Nat :=
  [1779033703, 3144134277, 1013904242, 2773480762, 1359893119,
   2600822924, 528734635, 1541459225]

/-- Big-endian byte decomposition, fixed width. -/
def beBytes (width n : Nat) : List Nat :=
  (List.range width).map (fun i => (n >>> (8 * (width - 1 - i))) % 256)

/-- SHA-256 message padding: append 0x80, zeros, and the 64-bit bit length. -/
def sha256Pad (msg : List Nat) : List Nat :=
  let len := msg.length
  let z := (119 - len % 64) % 64
  msg ++ [0x80] ++ List.replicate z 0 ++ beBytes 8 (len * 8)

/-- Split a list into chunks of the given size. -/
def chunksOf (k : Nat) : List α → List (List α)
  | [] => []
  | a :: t =>
    if h : k = 0 then [a :: t]
    else
      have : (a :: t).length - k < (a :: t).length := by
        simp [Nat.sub_lt, Nat.pos_of_ne_zero h]
      ((a :: t).take k) :: chunksOf k ((a :: t).drop k)
  termination_by l => l.length

/-- Assemble a 32-bit word from four big-endian bytes. -/
def wordOfBytes : List Nat → Nat
  | [a, b, c, d] => ((a * 256 + b) * 256 + c) * 256 + d
  | _ => 0

/-- Message schedule: extend 16 words to 64. -/
def sha256Schedule (ws : Array Nat) : Array Nat :=
  (List.range 48).foldl
    (fun w i =>
      let t := w32 (smallSigma1 w[(i + 14)]! + w[(i + 9)]! + smallSigma0 w[(i + 1)]! + w[i]!)
      w.push t)
    ws

/-- One round of the SHA-256 compression function. -/
def sha256Round (st : List Nat) (ki wi : Nat) : List Nat :=
  match st with
  | [a, b, c, d, e, f, g, h] =>
    let t1 := w32 (h + bigSigma1 e + ((e &&& f) ^^^ ((4294967295 ^^^ e) &&& g)) + ki + wi)
    let t2 := w32 (bigSigma0 a + ((a &&& b) ^^^ (a &&& c) ^^^ (b &&& c)))
    [w32 (t1 + t2), a, b, c, w32 (d + t1), e, f, g]
  | st => st

/-- Compress one 64-byte block into the running hash state. -/
def sha256Block (hs : List Nat) (block : List Nat) : List Nat :=
  let ws0 := ((chunksOf 4 block).map wordOfBytes).toArray
  let ws := sha256Schedule ws0
  let st := (List.range 64).foldl (fun st i => sha256Round st sha256K[i]! ws[i]!) hs
  (hs.zip st).map (fun p => w32 (p.1 + p.2))

/-- SHA-256 digest of a byte list, as eight 32-bit words. -/
def sha256Words (msg : List Nat) : List Nat :=
  ((chunksOf 64 (sha256Pad msg)).foldl sha256Block sha256H0)

def hexDigit (n : Nat) : Char :=
  if n < 10 then Char.ofNat (48 + n) else Char.ofNat (87 + n)

/-- Lowercase hexadecimal rendering of a 32-bit word. -/
def hexWord (n : Nat) : List Char :=
  (List.range 8).map (fun i => hexDigit ((n >>> (4 * (7 - i))) % 16))

/-- Hex digest string, as Python hashlib's hexdigest. -/
def sha256Hex (msg : List Nat) : String :=
  String.mk ((sha256Words msg).flatMap hexWord)

/-- UTF-8 bytes of a string, as Python str.encode. -/
def utf8Bytes (s : String) : List Nat :=
  s.toUTF8.toList.map (fun b => b.toNat)

/-! ### String helpers mirroring the Python text utilities -/

/-- Python str.replace with a single-character pattern: since the needle is a
single character, the replacement is exactly character-wise substitution. -/
def replace1 (c : Char) (rep : String) (s : String) : String :=
  String.mk (s.data.flatMap (fun x => if x = c then rep.data else [x]))

/-- escape_html from the source: replace ampersand first, then the angle
brackets. The input is a string, so the None guard of the source is vacuous
here. -/
def escape_html (s : String) : String :=
  replace1 '>' "&gt;" (replace1 '<' "&lt;" (replace1 '&' "&amp;" s))

/-- The ASCII whitespace characters recognized by Python str.split, str.strip
(the Unicode extras are not exercised by this development). -/
def isPyWs (c : Char) : Bool :=
  c = ' ' ∨ c = '\t' ∨ c = '\n' ∨ c = '\x0d' ∨ c = '\x0b' ∨ c = '\x0c'

/-- Python str.split with no argument: split on whitespace runs, dropping
empty pieces. -/
def pySplitAux : List Char → List Char → List String
  | [], acc => if acc.isEmpty then [] else [String.mk acc.reverse]
  | c :: rest, acc =>
    if isPyWs c then
      if acc.isEmpty then pySplitAux rest []
      else String.mk acc.reverse :: pySplitAux rest []
    else pySplitAux rest (c :: acc)

def pySplit (s : String) : List String := pySplitAux s.data []

/-- Python slicing from the start, code-point based. -/
def pySlice (s : String) (n : Nat) : String := String.mk (s.data.take n)

/-- Python str.rstrip with no argument: drop trailing whitespace. -/
def pyRstrip (s : String) : String :=
  String.mk (s.data.reverse.dropWhile isPyWs).reverse

/-- Python str.strip with no argument: drop leading and trailing whitespace. -/
def pyStrip (s : String) : String :=
  String.mk ((s.data.dropWhile isPyWs).reverse.dropWhile isPyWs).reverse

/-- Models Python html.unescape, restricted to the core named entities
(amp, lt, gt, quot); no claim in this development depends on the extent of
the entity table, and strip_tags cancels on both sides of every theorem that
mentions it. -/
def unescapeChars : List Char → List Char
  | [] => []
  | '&' :: 'a' :: 'm' :: 'p' :: ';' :: r => '&' :: unescapeChars r
  | '&' :: 'l' :: 't' :: ';' :: r => '<' :: unescapeChars r
  | '&' :: 'g' :: 't' :: ';' :: r => '>' :: unescapeChars r
  | '&' :: 'q' :: 'u' :: 'o' :: 't' :: ';' :: r => '"' :: unescapeChars r
  | c :: r => c :: unescapeChars r

def unescape (s : String) : String := String.mk (unescapeChars s.data)

/-- Locate the first closing angle bracket: returns the characters before it
and the remainder after it. -/
def findGt : List Char → Option (List Char × List Char)
  | [] => none
  | '>' :: r => some ([], r)
  | c :: r => (findGt r).map (fun p => (c :: p.1, p.2))

theorem findGt_length : ∀ (l b r : List Char), findGt l = some (b, r) → r.length < l.length := by
  intro l
  induction l with
  | nil => intro b r h; simp [findGt] at h
  | cons c rest ih =>
    intro b r h
    by_cases hc : c = '>'
    · subst hc; simp [findGt] at h; simp [← h.2]
    · rw [show findGt (c :: rest) = (findGt rest).map (fun p => (c :: p.1, p.2)) by
        cases c; simp_all [findGt]] at h
      cases hr : findGt rest with
      | none => rw [hr] at h; simp at h
      | some p =>
        rw [hr] at h
        simp at h
        have := ih p.1 p.2 (by rw [hr])
        simp [← h.2]
        omega

/-- Removal of every match of the tag regex: an opening angle bracket, one or
more characters that are not a closing bracket, then a closing bracket
(TAG_RE.sub with empty replacement). An opening bracket immediately followed
by a closing one, or with no closing bracket after it, is not a match and is
kept. Each step consumes at least one character, so fuel equal to the input
length suffices; structural recursion on fuel keeps the definition
kernel-reducible. -/
def stripTagsFuel : Nat → List Char → List Char
  | _, [] => []
  | 0, l => l
  | fuel + 1, '<' :: rest =>
    match findGt rest with
    | some (_ :: _, r2) => stripTagsFuel fuel r2
    | _ => '<' :: stripTagsFuel fuel rest
  | fuel + 1, c :: rest => c :: stripTagsFuel fuel rest

def stripTagMatches (l : List Char) : List Char := stripTagsFuel l.length l

/-- strip_tags from the source: unescape entities, remove tags, collapse
whitespace. -/
def strip_tags (text : String) : String :=
  if text = "" then ""
  else
    let txt := unescape text
    let txt := String.mk (stripTagMatches txt.data)
    let txt := String.intercalate " " (pySplit txt)
    pyStrip txt

/-! ### Image URL fixing and extraction -/

def SITE_BASE : String := "https://defence.in"

/-- Character-list prefix test (kernel-computable Python startswith). -/
def listIsPre : List Char → List Char → Bool
  | [], _ => true
  | _ :: _, [] => false
  | a :: as, b :: bs => a = b ∧ listIsPre as bs

/-- Python str.startswith. -/
def strStartsWith (s pre : String) : Bool := listIsPre pre.data s.data

/-- Case-insensitive test for an http or https scheme, as the anchored
regex match in the source. -/
def startsWithHttpScheme (url : String) : Bool :=
  listIsPre "http://".data (url.data.map Char.toLower)
    ∨ listIsPre "https://".data (url.data.map Char.toLower)

/-- Drop leading slash characters, as Python lstrip with a slash argument. -/
def lstripSlash (s : String) : String :=
  String.mk (s.data.dropWhile (· = '/'))

/-- Drop trailing slash characters, as Python rstrip with a slash argument. -/
def rstripSlash (s : String) : String :=
  String.mk (s.data.reverse.dropWhile (· = '/')).reverse

/-- fix_image_url from the source. -/
def fix_image_url (url : String) : Option String :=
  if url = "" then none
  else
    let url := pyStrip url
    if strStartsWith url "//" then some ("https:" ++ url)
    else if strStartsWith url "/" then some (rstripSlash SITE_BASE ++ url)
    else if ¬ startsWithHttpScheme url then
      some (rstripSlash SITE_BASE ++ "/" ++ lstripSlash url)
    else some url

/-! ### Feed entries

A feedparser entry is a dynamic dictionary; it is embedded as a record of
optional fields, covering exactly the keys the source reads. A media field
value may be a URL string, a dictionary (projected to the three keys the
source inspects: url, href, value), or a list of either. A parsed time
(struct_time) is embedded as seconds since the epoch, so the epoch sentinel
is zero; struct_time values are always truthy, absent keys are falsy. -/

inductive MediaItem where
  | mdict (url href value : Option String)
  | mstr (s : String)
deriving DecidableEq

inductive MediaVal where
  | mlist (items : List MediaItem)
  | mdict (url href value : Option String)
  | mstr (s : String)
deriving DecidableEq

structure Entry where
  id : Option String := none
  guid : Option String := none
  link : Option String := none
  title : Option String := none
  summary : Option String := none
  description : Option String := none
  published : Option String := none
  published_parsed : Option Nat := none
  updated_parsed : Option Nat := none
  media_content : Option MediaVal := none
  media_thumbnail : Option MediaVal := none
  media : Option MediaVal := none
  image : Option MediaVal := none
  enclosures : Option MediaVal := none
  content : Option String := none
deriving DecidableEq

/-- make_item_id from the source: first truthy among id, guid, link,
otherwise the SHA-256 hex digest of title, published and summary joined by
pipes, each defaulting to empty. -/
def make_item_id (e : Entry) : String :=
  if pyTruthy e.id then e.id.getD ""
  else if pyTruthy e.guid then e.guid.getD ""
  else if pyTruthy e.link then e.link.getD ""
  else sha256Hex (utf8Bytes
    (pyGetD e.title "" ++ "|" ++ pyGetD e.published "" ++ "|" ++ pyGetD e.summary ""))

/-- Python truthiness of an optional media value: empty lists and empty
strings are falsy; a present dictionary is modelled as non-empty, hence
truthy. -/
def mediaTruthy : Option MediaVal → Bool
  | none => false
  | some (.mstr s) => s ≠ ""
  | some (.mlist l) => ¬ l.isEmpty
  | some (.mdict _ _ _) => true

/-- First truthy value among the dictionary keys url, href, value. -/
def dictCandidate (u h v : Option String) : Option String :=
  if pyTruthy u then some (u.getD "")
  else if pyTruthy h then some (h.getD "")
  else if pyTruthy v then some (v.getD "")
  else none

/-- Scan a media list for the first item yielding a URL; some r means the
source function returns r from inside the loop, none means the loop falls
through to the next key. -/
def firstFromItems : List MediaItem → Option (Option String)
  | [] => none
  | .mdict u h v :: rest =>
    match dictCandidate u h v with
    | some c => some (fix_image_url c)
    | none => firstFromItems rest
  | .mstr s :: rest =>
    if s ≠ "" then some (fix_image_url s) else firstFromItems rest

/-- Extraction from one truthy media value. -/
def valExtract : MediaVal → Option (Option String)
  | .mlist items => firstFromItems items
  | .mdict u h v =>
    match dictCandidate u h v with
    | some c => some (fix_image_url c)
    | none => none
  | .mstr s => if s ≠ "" then some (fix_image_url s) else none

/-- The loop over the structured media keys, in source order. -/
def firstKeyHit : List (Option MediaVal) → Option (Option String)
  | [] => none
  | v :: rest =>
    if mediaTruthy v then
      match v with
      | some mv =>
        match valExtract mv with
        | some r => some r
        | none => firstKeyHit rest
      | none => firstKeyHit rest
    else firstKeyHit rest

def isQuote (c : Char) : Bool := c = '"' ∨ c = Char.ofNat 39

/-- Case-insensitive prefix test on character lists. -/
def ciPrefixAt : List Char → List Char → Bool
  | [], _ => true
  | _ :: _, [] => false
  | p :: ps, c :: cs => p.toLower = c.toLower ∧ ciPrefixAt ps cs

/-- After a src= occurrence: an opening quote, a non-empty maximal run of
non-quote characters (the captured group), a closing quote. -/
def srcValue (l : List Char) : Option String :=
  match l with
  | [] => none
  | q :: rest =>
    if isQuote q then
      let v := rest.takeWhile (fun c => ¬ isQuote c)
      if v.isEmpty then none
      else match rest.drop v.length with
        | _ :: _ => some (String.mk v)
        | [] => none
    else none

/-- Try the candidate offsets of the src= literal, largest first (the greedy
one-or-more-non-closing-bracket group backtracks from its maximal extent). -/
def tryCandidates (l : List Char) : List Nat → Option String
  | [] => none
  | j :: rest =>
    if ciPrefixAt "src=".data (l.drop j) then
      match srcValue (l.drop (j + 4)) with
      | some v => some v
      | none => tryCandidates l rest
    else tryCandidates l rest

/-- Attempt the IMG_SRC_RE match directly after an img-tag opening: the
src= literal must begin after at least one character and before the first
closing bracket. -/
def tryImgAt (l : List Char) : Option String :=
  let segLen := (l.takeWhile (· ≠ '>')).length
  tryCandidates l (((List.range segLen).map (fun j => j + 1)).reverse)

/-- Case-insensitive search for the first successful IMG_SRC_RE match,
returning the captured src attribute value. -/
def imgSrcSearch : List Char → Option String
  | [] => none
  | c :: rest =>
    if ciPrefixAt "<img".data (c :: rest) then
      match tryImgAt ((c :: rest).drop 4) with
      | some v => some v
      | none => imgSrcSearch rest
    else imgSrcSearch rest

/-- The fallback loop over the text fields, in source order; the list and
dictionary normalizations of the source collapse on string-valued fields. -/
def firstTextHit : List (Option String) → Option String
  | [] => none
  | t :: rest =>
    if pyTruthy t then
      match imgSrcSearch (t.getD "").data with
      | some v => fix_image_url v
      | none => firstTextHit rest
    else firstTextHit rest

/-- extract_first_image from the source: structured media keys first, then
an image tag inside the text fields. -/
def extract_first_image (e : Entry) : Option String :=
  match firstKeyHit [e.media_content, e.media_thumbnail, e.media, e.image, e.enclosures] with
  | some r => r
  | none => firstTextHit [e.summary, e.description, e.content]

/-- Python s or d on strings. -/
def pyOrS (s d : String) : String := if s ≠ "" then s else d

/-- build_caption from the source: bold title, cleaned and possibly
truncated summary, link line, joined by blank lines, hard-truncated to 900
characters. -/
def build_caption (e : Entry) (max_summary_len : Nat := 600) : String :=
  let title := pyOrS (pyGetD e.title "No title") "No title"
  let summary := pyOrS (e.summary.getD "") (pyOrS (e.description.getD "") "")
  let summary_text := strip_tags summary
  let summary_text :=
    if summary_text ≠ "" ∧ summary_text.length > max_summary_len then
      pyRstrip (pySlice summary_text (max_summary_len - 3)) ++ "..."
    else summary_text
  let link := pyOrS (e.link.getD "") ""
  let parts := ["<b>" ++ escape_html title ++ "</b>"]
    ++ (if summary_text ≠ "" then [escape_html summary_text] else [])
    ++ (if link ≠ "" then ["🔗 <a href=\"" ++ escape_html link ++ "\">Open post</a>"] else [])
  let caption := String.intercalate "\n\n" parts
  if caption.length > 900 then pyRstrip (pySlice caption 900) ++ "..." else caption

/-! ### Seen-set store

The state file is embedded as either absent, present but unparsable, or a
parsed JSON array of strings; pretty-printing details carry no semantics. -/

inductive FileState where
  | absent
  | corrupt
  | good (arr : List String)
deriving DecidableEq

/-- The fallible read-and-parse of the state file: opening a missing file or
parsing corrupt content raises, embedded as Except.error. -/
def readStateArray : FileState → Except String (List String)
  | .absent => Except.error "FileNotFoundError"
  | .corrupt => Except.error "JSONDecodeError"
  | .good arr => Except.ok arr

/-- load_seen from the source: a missing file short-circuits to the empty
set before any read; a raising read or parse is caught and yields the empty
set. The Bool records whether the failure log line was printed. -/
def load_seen (fs : FileState) : Finset String × Bool :=
  if fs = FileState.absent then (∅, false)
  else
    match readStateArray fs with
    | Except.ok arr => (arr.toFinset, false)
    | Except.error _ => (∅, true)

/-- Lexicographic order on character lists by code point, as Python string
comparison. -/
def lexLe : List Char → List Char → Bool
  | [], _ => true
  | _ :: _, [] => false
  | a :: as, b :: bs =>
    if a.toNat < b.toNat then true
    else if a.toNat = b.toNat then lexLe as bs
    else false

def strLe (a b : String) : Bool := lexLe a.data b.data

theorem lexLe_total : ∀ a b : List Char, lexLe a b = true ∨ lexLe b a = true := by
  intro a
  induction a with
  | nil => intro b; left; rfl
  | cons x xs ih =>
    intro b
    cases b with
    | nil => right; rfl
    | cons y ys =>
      rcases Nat.lt_trichotomy x.toNat y.toNat with h | h | h
      · left; simp [lexLe, h]
      · rcases ih ys with h2 | h2
        · left; simp [lexLe, h, h2]
        · right; simp [lexLe, h.symm, h2]
      · right; simp [lexLe, h]

theorem lexLe_trans : ∀ a b c : List Char,
    lexLe a b = true → lexLe b c = true → lexLe a c = true := by
  intro a
  induction a with
  | nil => intro b c _ _; rfl
  | cons x xs ih =>
    intro b c hab hbc
    cases b with
    | nil => simp [lexLe] at hab
    | cons y ys =>
      cases c with
      | nil => simp [lexLe] at hbc
      | cons z zs =>
        simp only [lexLe] at hab hbc ⊢
        by_cases hxy : x.toNat < y.toNat
        · by_cases hyz : y.toNat < z.toNat
          · simp [Nat.lt_trans hxy hyz]
          · simp [hxy] at hab
            by_cases hyz2 : y.toNat = z.toNat
            · simp [hyz2 ▸ hxy]
            · simp [hyz, hyz2] at hbc
        · by_cases hxy2 : x.toNat = y.toNat
          · simp [hxy, hxy2] at hab
            by_cases hyz : y.toNat < z.toNat
            · simp [hxy2 ▸ hyz]
            · by_cases hyz2 : y.toNat = z.toNat
              · simp [hyz, hyz2] at hbc
                simp [hxy2 ▸ hyz, hxy2.trans hyz2, ih ys zs hab hbc]
              · simp [hyz, hyz2] at hbc
          · simp [hxy, hxy2] at hab

theorem char_eq_of_toNat_eq {a b : Char} (h : a.toNat = b.toNat) : a = b := by
  have h3 : a.val = b.val := by
    apply UInt32.eq_of_toBitVec_eq
    apply BitVec.eq_of_toNat_eq
    exact h
  exact Char.eq_of_val_eq h3

theorem lexLe_antisymm : ∀ a b : List Char,
    lexLe a b = true → lexLe b a = true → a = b := by
  intro a
  induction a with
  | nil => intro b _ hba; cases b with
    | nil => rfl
    | cons y ys => simp [lexLe] at hba
  | cons x xs ih =>
    intro b hab hba
    cases b with
    | nil => simp [lexLe] at hab
    | cons y ys =>
      simp only [lexLe] at hab hba
      by_cases hxy : x.toNat < y.toNat
      · have : ¬ y.toNat < x.toNat := by omega
        have : ¬ y.toNat = x.toNat := by omega
        simp_all
      · by_cases hxy2 : x.toNat = y.toNat
        · simp [hxy, hxy2] at hab
          have hyx : ¬ y.toNat < x.toNat := by omega
          simp [hyx, hxy2.symm] at hba
          have hc : x = y := char_eq_of_toNat_eq hxy2
          rw [hc, ih ys hab hba]
        · simp [hxy, hxy2] at hab

/-- Sorted insertion for strings. -/
def insertSorted (a : String) : List String → List String
  | [] => [a]
  | q :: qs => if strLe a q then a :: q :: qs else q :: insertSorted a qs

/-- Insertion sort for strings, ascending lexicographically; stable sorts
with the same key agree, so this computes what Python sorted computes. -/
def sortStrings : List String → List String
  | [] => []
  | a :: rest => insertSorted a (sortStrings rest)

theorem insertSorted_perm (a : String) :
    ∀ l : List String, List.Perm (insertSorted a l) (a :: l) := by
  intro l
  induction l with
  | nil => simp [insertSorted]
  | cons q qs ih =>
    by_cases h : strLe a q
    · simp [insertSorted, h]
    · simp only [insertSorted, h, Bool.false_eq_true, if_false]
      exact (List.Perm.cons q ih).trans (List.Perm.swap a q qs)

theorem sortStrings_perm : ∀ l : List String, List.Perm (sortStrings l) l := by
  intro l
  induction l with
  | nil => simp [sortStrings]
  | cons a rest ih =>
    exact (insertSorted_perm a (sortStrings rest)).trans (List.Perm.cons a ih)

/-- The sortedness relation used for the persisted identity list. -/
def strOrd (a b : String) : Prop := strLe a b = true

theorem strOrd_total (a b : String) : strOrd a b ∨ strOrd b a := lexLe_total a.data b.data

theorem strOrd_trans {a b c : String} (h1 : strOrd a b) (h2 : strOrd b c) : strOrd a c :=
  lexLe_trans a.data b.data c.data h1 h2

theorem strOrd_antisymm {a b : String} (h1 : strOrd a b) (h2 : strOrd b a) : a = b := by
  have h := lexLe_antisymm a.data b.data h1 h2
  cases a; cases b
  exact congrArg String.mk h

theorem insertSorted_sorted (a : String) : ∀ l : List String,
    l.Pairwise strOrd → (insertSorted a l).Pairwise strOrd := by
  intro l
  induction l with
  | nil => intro _; simp [insertSorted, strOrd]
  | cons q qs ih =>
    intro h
    rw [List.pairwise_cons] at h
    by_cases hq : strLe a q
    · simp only [insertSorted, hq, if_pos]
      rw [List.pairwise_cons]
      refine ⟨?_, List.pairwise_cons.mpr h⟩
      intro y hy
      rcases List.mem_cons.mp hy with hy | hy
      · exact hy ▸ hq
      · exact strOrd_trans hq (h.1 y hy)
    · simp only [insertSorted, hq, Bool.false_eq_true, if_false]
      rw [List.pairwise_cons]
      refine ⟨?_, ih h.2⟩
      intro y hy
      have hy2 := (insertSorted_perm a qs).mem_iff.mp hy
      rcases List.mem_cons.mp hy2 with hy2 | hy2
      · subst hy2
        rcases strOrd_total q y with h2 | h2
        · exact h2
        · exact absurd h2 (by simpa [strOrd] using hq)
      · exact h.1 y hy2

theorem sortStrings_sorted : ∀ l : List String, (sortStrings l).Pairwise strOrd := by
  intro l
  induction l with
  | nil => simp [sortStrings]
  | cons a rest ih => exact insertSorted_sorted a _ ih

theorem sortStrings_eq_of_perm {l1 l2 : List String} (h : List.Perm l1 l2) :
    sortStrings l1 = sortStrings l2 := by
  have hp : List.Perm (sortStrings l1) (sortStrings l2) :=
    ((sortStrings_perm l1).trans h).trans (sortStrings_perm l2).symm
  exact @List.eq_of_perm_of_sorted _ strOrd ⟨fun a b h1 h2 => strOrd_antisymm h1 h2⟩ _ _ hp
    (sortStrings_sorted l1) (sortStrings_sorted l2)

/-- save_seen from the source: overwrite the state file with the sorted
identity list (Python sorted on the set). The set has no intrinsic order;
the sort is lifted over the underlying multiset, which is legitimate because
sorting is invariant under permutation. -/
def save_seen (s : Finset String) : FileState :=
  FileState.good (Quotient.liftOn s.val sortStrings (fun _ _ h => sortStrings_eq_of_perm h))

/-! ### Delivery client

The network is an oracle assigning a transport outcome to the i-th outbound
request of the run: true is HTTP-style success (2xx and a well-formed body),
false is any failure (non-2xx status, malformed response, exception,
timeout). Each send helper records the requests it issued. -/

abbrev Net := Nat → Bool

inductive Req where
  | sendPhoto (photo caption : String)
  | sendMessageHTML (text : String)
  | sendMessagePlain (text : String)
deriving DecidableEq

structure SendOut where
  ok : Bool
  k : Nat
  reqs : List Req

/-- send_telegram_message_plain from the source: one sendMessage POST
without a parse mode. -/
def send_telegram_message_plain (net : Net) (k : Nat) (text : String) : SendOut :=
  { ok := net k, k := k + 1, reqs := [Req.sendMessagePlain text] }

/-- send_telegram_photo from the source: one sendPhoto POST with an HTML
caption; success is status 200. -/
def send_telegram_photo (net : Net) (k : Nat) (photo caption : String) : SendOut :=
  { ok := net k, k := k + 1, reqs := [Req.sendPhoto photo caption] }

/-- The plain-text fallback body from the source: stripped title, blank
line, stripped summary or description, then a blank line and the link when
one is present. -/
def fallback_text (e : Entry) : String :=
  let link := pyOrS (pyGetD e.link "") ""
  strip_tags (pyGetD e.title "") ++ "\n\n"
    ++ strip_tags (pyOrS (pyGetD e.summary "") (pyOrS (pyGetD e.description "") ""))
    ++ (if link ≠ "" then "\n\n" ++ link else "")

/-- send_telegram_entry from the source: photo attempt with plain-text
fallback when an image was extracted, otherwise an HTML sendMessage attempt
with the same plain-text fallback. -/
def send_telegram_entry (net : Net) (k : Nat) (e : Entry) : SendOut :=
  let img := extract_first_image e
  let caption := build_caption e
  match img with
  | some photo =>
    let first := send_telegram_photo net k photo caption
    if first.ok then first
    else
      let fb := send_telegram_message_plain net first.k (fallback_text e)
      { ok := fb.ok, k := fb.k, reqs := first.reqs ++ fb.reqs }
  | none =>
    let first : SendOut := { ok := net k, k := k + 1, reqs := [Req.sendMessageHTML caption] }
    if first.ok then first
    else
      let fb := send_telegram_message_plain net first.k (fallback_text e)
      { ok := fb.ok, k := fb.k, reqs := first.reqs ++ fb.reqs }

/-! ### Reconciliation driver -/

/-- sort_key from the source: parsed publish time, else parsed update time,
else the epoch sentinel. -/
def sort_key (e : Entry) : Nat :=
  match e.published_parsed with
  | some t => t
  | none =>
    match e.updated_parsed with
    | some t => t
    | none => 0

/-- Stable insertion into a list sorted ascending by sort_key: the new
element goes before the first element whose key is not smaller. -/
def insertEntry (p : String × Entry) : List (String × Entry) → List (String × Entry)
  | [] => [p]
  | q :: qs =>
    if sort_key q.2 < sort_key p.2 then q :: insertEntry p qs else p :: q :: qs

/-- Stable ascending sort by sort_key; stable sorts agree, so this computes
what list.sort with the key function computes. -/
def sortEntries : List (String × Entry) → List (String × Entry)
  | [] => []
  | p :: ps => insertEntry p (sortEntries ps)

/-- The classification pass of main: pair each entry with its identity and
keep those whose identity is not in the loaded seen set. -/
def newEntries (seen : Finset String) (entries : List Entry) : List (String × Entry) :=
  (entries.map (fun e => (make_item_id e, e))).filter (fun p => decide (p.1 ∉ seen))

structure LoopOut where
  seen : Finset String
  any_sent : Bool
  k : Nat
  sent : List String

/-- The delivery loop of main: send each new entry in order; on success add
its identity to the in-memory seen set and continue, on failure stop
immediately. sent records the successfully delivered identities in order. -/
def deliver_loop (net : Net) : Nat → Finset String → List (String × Entry) → LoopOut
  | k, seen, [] => { seen := seen, any_sent := false, k := k, sent := [] }
  | k, seen, (iid, e) :: rest =>
    let r := send_telegram_entry net k e
    if r.ok then
      let out := deliver_loop net r.k (insert iid seen) rest
      { seen := out.seen, any_sent := true, k := out.k, sent := iid :: out.sent }
    else
      { seen := seen, any_sent := false, k := r.k, sent := [] }

structure RunOut where
  file : FileState
  wrote : Bool
  loop : LoopOut

/-- main from the source, over a given state file, fetched entry list and
network oracle: load, classify against the loaded set, sort, deliver, and
save exactly when at least one send succeeded. -/
def run_main (net : Net) (fs : FileState) (entries : List Entry) : RunOut :=
  let seen := (load_seen fs).1
  let news := sortEntries (newEntries seen entries)
  let out := deliver_loop net 0 seen news
  { file := if out.any_sent then save_seen out.seen else fs,
    wrote := out.any_sent,
    loop := out }

/-- Outcome of the delivery attempt for one entry at request counter k. -/
def deliver_ok (net : Net) (k : Nat) (e : Entry) : Bool :=
  (send_telegram_entry net k e).ok

/-- Request counter after the delivery attempt for one entry. -/
def deliver_next (net : Net) (k : Nat) (e : Entry) : Nat :=
  (send_telegram_entry net k e).k

/-- Length of the successful prefix of the batch: how many entries the loop
delivers before the first failure (or the whole list). -/
def okCount (net : Net) : Nat → List (String × Entry) → Nat
  | _, [] => 0
  | k, (_, e) :: rest =>
    if deliver_ok net k e then okCount net (deliver_next net k e) rest + 1 else 0

/-- Character-wise escaping map underlying escape_html. -/
def escChar (c : Char) : List Char :=
  if c = '&' then "&amp;".data
  else if c = '<' then "&lt;".data
  else if c = '>' then "&gt;".data
  else [c]

/-- Whether a string ends in the three-dot ellipsis marker. -/
def endsInEllipsis (s : String) : Bool :=
  s.data.reverse.take 3 = ['.', '.', '.']

/-! ### Concrete inputs used by the claims -/

/-- A title of 1000 letters: the assembled caption is 1007 characters, the
900-character cut ends in a letter, so the final caption is 903 characters. -/
def entryLongTitle : Entry := { title := some (String.mk (List.replicate 1000 'a')) }

/-- A plain-text summary of 2000 characters with a short title. -/
def entrySummary2000 : Entry :=
  { title := some "Title", summary := some (String.mk (List.replicate 2000 'a')) }

/-- Three entries with ascending publish times, used for the halting batch. -/
def entryBatch1 : Entry := { link := some "https://x/1", title := some "one", published_parsed := some 10 }
def entryBatch2 : Entry := { link := some "https://x/2", title := some "two", published_parsed := some 20 }
def entryBatch3 : Entry := { link := some "https://x/3", title := some "three", published_parsed := some 30 }

/-- The network for the halting batch: entry one's single request succeeds,
every later request (entry two's attempt and its fallback) fails. -/
def netFirstOnly : Net := fun k => k = 0

/-- A network on which every request succeeds. -/
def netAll : Net := fun _ => true

/-- A network on which every request fails. -/
def netNone : Net := fun _ => false

/-- Ordering scenario: publish time present (T2 = 200). -/
def entryT2 : Entry := { link := some "https://x/2", title := some "two", published_parsed := some 200 }

/-- Ordering scenario: no time information, sorts at the epoch sentinel. -/
def entryT1 : Entry := { link := some "https://x/1", title := some "one" }

/-- Ordering scenario: publish time present (T3 = 300). -/
def entryT3 : Entry := { link := some "https://x/3", title := some "three", published_parsed := some 300 }

/-- Duplicate-identity scenario: two distinct feed entries resolving to the
same link identity. -/
def entryDupA : Entry := { link := some "https://x/D", title := some "first copy" }
def entryDupB : Entry := { link := some "https://x/D", title := some "second copy" }

/-- An entry with a structured media image, for the delivery decision tree. -/
def entryImg : Entry :=
  { link := some "https://x/1", title := some "pic",
    media_content := some (MediaVal.mlist [MediaItem.mdict (some "https://x/1.jpg") none none]) }

/-- An entry with no image anywhere, for the delivery decision tree. -/
def entryNoImg : Entry := { link := some "https://x/2", title := some "text only" }

/-! ### Claim C3: identity resolution -/

/-- Claim C3: the identity resolver returns the first non-empty field in
priority order id, guid, link, unchanged; when all three are missing or
empty it returns the SHA-256 hex digest of title, published and summary
joined by pipes (missing fields defaulting to empty), hence always a string
determined by those three fields. -/
theorem claim_C3 (e e' : Entry) :
    (pyTruthy e.id = true → make_item_id e = e.id.getD "") ∧
    (pyTruthy e.id = false → pyTruthy e.guid = true → make_item_id e = e.guid.getD "") ∧
    (pyTruthy e.id = false → pyTruthy e.guid = false → pyTruthy e.link = true →
      make_item_id e = e.link.getD "") ∧
    (pyTruthy e.id = false → pyTruthy e.guid = false → pyTruthy e.link = false →
      make_item_id e = sha256Hex (utf8Bytes
        (pyGetD e.title "" ++ "|" ++ pyGetD e.published "" ++ "|" ++ pyGetD e.summary ""))) ∧
    (pyTruthy e.id = false → pyTruthy e.guid = false → pyTruthy e.link = false →
      pyTruthy e'.id = false → pyTruthy e'.guid = false → pyTruthy e'.link = false →
      pyGetD e.title "" = pyGetD e'.title "" →
      pyGetD e.published "" = pyGetD e'.published "" →
      pyGetD e.summary "" = pyGetD e'.summary "" →
      make_item_id e = make_item_id e') := by
  refine ⟨?_, ?_, ?_, ?_, ?_⟩
  · intro h1; simp [make_item_id, h1]
  · intro h1 h2; simp [make_item_id, h1, h2]
  · intro h1 h2 h3; simp [make_item_id, h1, h2, h3]
  · intro h1 h2 h3; simp [make_item_id, h1, h2, h3]
  · intro h1 h2 h3 h1' h2' h3' ht hp hs
    simp [make_item_id, h1, h2, h3, h1', h2', h3', ht, hp, hs]

theorem claim_C3_witness :
    make_item_id { id := some "I", guid := some "G" } = "I" ∧
    make_item_id { guid := some "G", link := some "L" } = "G" ∧
    make_item_id { link := some "L" } = "L" ∧
    make_item_id { id := some "", title := some "T", published := some "P", summary := some "S" } =
      sha256Hex (utf8Bytes "T|P|S") :=
  ⟨(claim_C3 { id := some "I", guid := some "G" } { id := some "I", guid := some "G" }).1
      (by decide),
    (claim_C3 { guid := some "G", link := some "L" } { guid := some "G", link := some "L" }).2.1
      (by decide) (by decide),
    (claim_C3 { link := some "L" } { link := some "L" }).2.2.1
      (by decide) (by decide) (by decide),
    (claim_C3 { id := some "", title := some "T", published := some "P", summary := some "S" }
        { id := some "", title := some "T", published := some "P", summary := some "S" }).2.2.2.1
      (by decide) (by decide) (by decide)⟩

/-! ### Claim C8: load robustness -/

/-- Claim C8: load returns the empty seen set both when the state file does
not exist and when it exists but cannot be parsed; the parse failure is
logged in the latter case only, and a failing read never propagates — every
file state with a failing read yields the empty set, not an error. -/
theorem claim_C8 :
    load_seen FileState.absent = (∅, false) ∧
    load_seen FileState.corrupt = (∅, true) ∧
    (∀ fs : FileState, (readStateArray fs).isOk = false → (load_seen fs).1 = ∅) := by
  refine ⟨rfl, rfl, ?_⟩
  intro fs h
  cases fs with
  | absent => rfl
  | corrupt => rfl
  | good arr => simp [readStateArray, Except.isOk, Except.toBool] at h

theorem claim_C8_witness :
    (readStateArray FileState.corrupt).isOk = false ∧
    (load_seen FileState.corrupt).1 = ∅ :=
  ⟨by decide, claim_C8.2.2 FileState.corrupt (by decide)⟩

/-! ### Claim C9: save then load round-trips -/

theorem sortMultiset_toFinset (s : Finset String) :
    (Quotient.liftOn s.val sortStrings (fun _ _ h => sortStrings_eq_of_perm h)).toFinset = s := by
  rcases s with ⟨m, hnd⟩
  induction m using Quotient.inductionOn with
  | h lst =>
    have hp := sortStrings_perm lst
    have h2 : lst.Nodup := Multiset.coe_nodup.mp hnd
    show (sortStrings lst).toFinset = ⟨Quot.mk _ lst, hnd⟩
    rw [List.toFinset_eq_of_perm _ _ hp]
    exact (List.toFinset_eq h2).symm

/-- Claim C9: for every non-empty set of identities, saving and re-loading
yields an equal set; the persisted form is a sorted list of the identities
carrying the same elements. -/
theorem claim_C9 (S : Finset String) (_h : S.Nonempty) :
    (load_seen (save_seen S)).1 = S ∧
    (∃ l : List String, save_seen S = FileState.good l ∧
      l.Pairwise strOrd ∧ l.toFinset = S) := by
  constructor
  · simp [save_seen, load_seen, readStateArray]
    exact sortMultiset_toFinset S
  · refine ⟨Quotient.liftOn S.val sortStrings (fun _ _ h => sortStrings_eq_of_perm h),
      rfl, ?_, sortMultiset_toFinset S⟩
    rcases S with ⟨m, hnd⟩
    induction m using Quotient.inductionOn with
    | h lst => exact sortStrings_sorted lst

theorem claim_C9_witness :
    (({"b", "a"} : Finset String).Nonempty) ∧
    (load_seen (save_seen ({"b", "a"} : Finset String))).1 = {"b", "a"} :=
  ⟨⟨"b", by decide⟩, (claim_C9 {"b", "a"} ⟨"b", by decide⟩).1⟩

/-! ### Claim C5: markup escaping (corrected) -/

theorem escape_html_data (s : String) :
    (escape_html s).data = s.data.flatMap escChar := by
  show ((s.data.flatMap fun x => if x = '&' then "&amp;".data else [x]).flatMap
      (fun x => if x = '<' then "&lt;".data else [x])).flatMap
      (fun x => if x = '>' then "&gt;".data else [x]) = s.data.flatMap escChar
  induction s.data with
  | nil => rfl
  | cons c l ih =>
    simp only [List.flatMap_cons, List.flatMap_append, ih]
    congr 1
    by_cases h1 : c = '&'
    · subst h1; rfl
    · by_cases h2 : c = '<'
      · subst h2; rfl
      · by_cases h3 : c = '>'
        · subst h3; rfl
        · simp [escChar, h1, h2, h3, List.flatMap_cons]

theorem escChar_no_raw (c x : Char) (hx : x ∈ escChar c) : x ≠ '<' ∧ x ≠ '>' := by
  by_cases h1 : c = '&'
  · subst h1; simp [escChar] at hx; rcases hx with h | h | h | h | h <;> simp [h]
  · by_cases h2 : c = '<'
    · subst h2; simp [escChar] at hx; rcases hx with h | h | h | h <;> simp [h]
    · by_cases h3 : c = '>'
      · subst h3; simp [escChar] at hx; rcases hx with h | h | h | h <;> simp [h]
      · simp [escChar, h1, h2, h3] at hx
        subst hx; exact ⟨h2, h3⟩

/-- Claim C5, corrected: escape_html is exactly the character-wise
substitution of the three markup-significant characters (ampersand escaped
first), so its output never contains a raw angle bracket; but it is not
idempotent-safe on already-escaped input: the ampersand of an existing
entity is escaped again. -/
theorem claim_C5 :
    (∀ s : String, (escape_html s).data = s.data.flatMap escChar) ∧
    (∀ s : String, '<' ∉ (escape_html s).data ∧ '>' ∉ (escape_html s).data) ∧
    escape_html "&amp;" = "&amp;amp;" := by
  refine ⟨escape_html_data, ?_, by decide⟩
  intro s
  constructor
  · intro hmem
    rw [escape_html_data] at hmem
    obtain ⟨c, _, hc⟩ := List.mem_flatMap.mp hmem
    exact (escChar_no_raw c '<' hc).1 rfl
  · intro hmem
    rw [escape_html_data] at hmem
    obtain ⟨c, _, hc⟩ := List.mem_flatMap.mp hmem
    exact (escChar_no_raw c '>' hc).2 rfl

theorem claim_C5_witness :
    (escape_html "<script>&").data = "<script>&".data.flatMap escChar ∧
    '<' ∉ (escape_html "<script>&").data ∧ '>' ∉ (escape_html "<script>&").data :=
  ⟨claim_C5.1 "<script>&", claim_C5.2.1 "<script>&"⟩

/-- Counterexample to claim C5 as stated: applying the escaper to a string
that already contains the escaped sequence does escape its ampersand again,
producing a double-escaped entity rather than leaving it unchanged. -/
theorem claim_C5_cex :
    escape_html "&amp;" = "&amp;amp;" ∧ "&amp;amp;" ≠ "&amp;" := by
  constructor
  · decide
  · decide

/-! ### Claim C4: caption length ceiling (corrected)

The two concrete instances use summaries and titles of thousands of
characters; they are evaluated symbolically through lemmas about replicated
character lists rather than by kernel computation. -/

theorem data_append (a b : String) : (a ++ b).data = a.data ++ b.data := rfl

theorem string_ext {s t : String} (h : s.data = t.data) : s = t := by
  cases s; cases t
  exact congrArg String.mk h

theorem mk_replicate_ne_empty (n : Nat) (h : 0 < n) :
    String.mk (List.replicate n 'a') ≠ "" := by
  intro he
  have h2 := congrArg String.length he
  simp only [show (String.mk (List.replicate n 'a')).length = n by
    show (List.replicate n 'a').length = n
    exact List.length_replicate n 'a'] at h2
  simp at h2
  omega

theorem unescapeChars_replicate (n : Nat) :
    unescapeChars (List.replicate n 'a') = List.replicate n 'a' := by
  induction n with
  | zero => rfl
  | succ n ih =>
    have h1 : unescapeChars (List.replicate (n + 1) 'a')
        = 'a' :: unescapeChars (List.replicate n 'a') := rfl
    rw [h1, ih, ← List.replicate_succ]

theorem stripTagsFuel_replicate (n : Nat) : ∀ fuel : Nat,
    stripTagsFuel fuel (List.replicate n 'a') = List.replicate n 'a' := by
  induction n with
  | zero => intro fuel; cases fuel <;> rfl
  | succ n ih =>
    intro fuel
    cases fuel with
    | zero => rfl
    | succ fuel =>
      have h1 : stripTagsFuel (fuel + 1) (List.replicate (n + 1) 'a')
          = 'a' :: stripTagsFuel fuel (List.replicate n 'a') := rfl
      rw [h1, ih fuel, ← List.replicate_succ]

theorem pySplitAux_replicate (n : Nat) : ∀ acc : List Char, acc ≠ [] ∨ 0 < n →
    pySplitAux (List.replicate n 'a') acc
      = [String.mk (acc.reverse ++ List.replicate n 'a')] := by
  induction n with
  | zero =>
    intro acc h
    rcases h with h | h
    · have h2 : acc.isEmpty = false := by
        cases acc with
        | nil => exact absurd rfl h
        | cons a t => rfl
      show (if acc.isEmpty then [] else [String.mk acc.reverse]) = _
      rw [h2]
      simp
    · omega
  | succ n ih =>
    intro acc _
    have h1 : pySplitAux (List.replicate (n + 1) 'a') acc
        = pySplitAux (List.replicate n 'a') ('a' :: acc) := rfl
    rw [h1, ih ('a' :: acc) (Or.inl (by simp))]
    rw [List.reverse_cons, List.append_assoc, List.singleton_append, ← List.replicate_succ]

theorem dropWhile_ws_replicate (n : Nat) :
    List.dropWhile isPyWs (List.replicate n 'a') = List.replicate n 'a' := by
  cases n with
  | zero => rfl
  | succ n => rfl

theorem pyStrip_replicate (n : Nat) :
    pyStrip (String.mk (List.replicate n 'a')) = String.mk (List.replicate n 'a') := by
  show String.mk
    ((((List.replicate n 'a').dropWhile isPyWs).reverse.dropWhile isPyWs).reverse) = _
  rw [dropWhile_ws_replicate, List.reverse_replicate, dropWhile_ws_replicate,
    List.reverse_replicate]

theorem strip_tags_replicate (n : Nat) (h : 0 < n) :
    strip_tags (String.mk (List.replicate n 'a')) = String.mk (List.replicate n 'a') := by
  unfold strip_tags
  rw [if_neg (mk_replicate_ne_empty n h)]
  show pyStrip (String.intercalate " " (pySplit (String.mk (stripTagMatches
    (unescape (String.mk (List.replicate n 'a'))).data)))) = _
  have h1 : unescape (String.mk (List.replicate n 'a')) = String.mk (List.replicate n 'a') := by
    show String.mk (unescapeChars (List.replicate n 'a')) = _
    rw [unescapeChars_replicate]
  rw [h1]
  have h2 : stripTagMatches (String.mk (List.replicate n 'a')).data = List.replicate n 'a' := by
    show stripTagsFuel (List.replicate n 'a').length (List.replicate n 'a') = _
    rw [stripTagsFuel_replicate]
  rw [h2]
  have h3 : pySplit (String.mk (List.replicate n 'a')) = [String.mk (List.replicate n 'a')] := by
    show pySplitAux (List.replicate n 'a') [] = _
    rw [pySplitAux_replicate n [] (Or.inr h)]
    rfl
  rw [h3]
  have h4 : String.intercalate " " [String.mk (List.replicate n 'a')]
      = String.mk (List.replicate n 'a') := rfl
  rw [h4, pyStrip_replicate]

theorem flatMap_escChar_plain : ∀ l : List Char,
    (∀ c ∈ l, c ≠ '&' ∧ c ≠ '<' ∧ c ≠ '>') → l.flatMap escChar = l := by
  intro l
  induction l with
  | nil => intro _; rfl
  | cons c t ih =>
    intro h
    have hc := h c (by simp)
    rw [List.flatMap_cons, ih (fun x hx => h x (by simp [hx]))]
    simp [escChar, hc.1, hc.2.1, hc.2.2]

theorem escape_html_plain (s : String)
    (h : ∀ c ∈ s.data, c ≠ '&' ∧ c ≠ '<' ∧ c ≠ '>') : escape_html s = s := by
  apply string_ext
  rw [escape_html_data, flatMap_escChar_plain s.data h]

theorem endsInEllipsis_of_data (s : String) (l : List Char)
    (h : s.data = l ++ ['.', '.', '.']) : endsInEllipsis s = true := by
  simp only [endsInEllipsis, h, List.reverse_append, decide_eq_true_eq]
  rfl

/-- The 2000-character plain summary evaluates to a 614-character caption:
bold title, blank line, the 597-character cut of the summary with an
ellipsis. -/
theorem build_caption_summary2000 :
    build_caption entrySummary2000
      = "<b>Title</b>" ++ "\n\n" ++ (String.mk (List.replicate 597 'a') ++ "...") := by
  have hne : String.mk (List.replicate 2000 'a') ≠ "" := mk_replicate_ne_empty 2000 (by omega)
  have hst := strip_tags_replicate 2000 (by omega)
  have hlen2000 : (String.mk (List.replicate 2000 'a')).length = 2000 :=
    List.length_replicate 2000 'a'
  have hcond : String.mk (List.replicate 2000 'a') ≠ ""
      ∧ (String.mk (List.replicate 2000 'a')).length > 600 :=
    ⟨hne, by rw [hlen2000]; omega⟩
  have hslice : pySlice (String.mk (List.replicate 2000 'a')) (600 - 3)
      = String.mk (List.replicate 597 'a') := by
    show String.mk (List.take 597 (List.replicate 2000 'a')) = _
    rw [List.take_replicate]
    norm_num
  have hrs : pyRstrip (String.mk (List.replicate 597 'a'))
      = String.mk (List.replicate 597 'a') := by
    show String.mk (((List.replicate 597 'a').reverse.dropWhile isPyWs).reverse) = _
    rw [List.reverse_replicate, dropWhile_ws_replicate, List.reverse_replicate]
  have hesc : escape_html (String.mk (List.replicate 597 'a') ++ "...")
      = String.mk (List.replicate 597 'a') ++ "..." := by
    apply escape_html_plain
    intro c hc
    rw [data_append] at hc
    rw [show (String.mk (List.replicate 597 'a')).data = List.replicate 597 'a' from rfl] at hc
    rw [show ("..." : String).data = ['.', '.', '.'] from rfl] at hc
    rcases List.mem_append.mp hc with hc | hc
    · rw [List.eq_of_mem_replicate hc]; decide
    · simp only [List.mem_cons, List.not_mem_nil, or_false] at hc
      rcases hc with hc | hc | hc <;> (rw [hc]; decide)
  have hsumne : String.mk (List.replicate 597 'a') ++ "..." ≠ "" := by
    intro he
    have h2 := congrArg String.length he
    rw [String.length_append] at h2
    rw [show (String.mk (List.replicate 597 'a')).length = 597 from
      List.length_replicate 597 'a'] at h2
    exact absurd h2 (by decide)
  have hlink : ¬ (pyOrS "" "" ≠ "") := fun h => h rfl
  simp only [build_caption, entrySummary2000, Option.getD_some, Option.getD_none, pyGetD]
  rw [show pyOrS (String.mk (List.replicate 2000 'a')) (pyOrS "" "")
      = String.mk (List.replicate 2000 'a') from if_pos hne]
  rw [hst, if_pos hcond, hslice, hrs]
  rw [show pyOrS "Title" "No title" = "Title" from if_pos (by decide)]
  rw [show escape_html "Title" = "Title" from rfl]
  rw [if_pos hsumne, hesc, if_neg hlink]
  rw [show String.intercalate "\n\n"
      (["<b>" ++ "Title" ++ "</b>"] ++ [String.mk (List.replicate 597 'a') ++ "..."] ++ [])
      = ("<b>" ++ "Title" ++ "</b>") ++ "\n\n" ++ (String.mk (List.replicate 597 'a') ++ "...")
      from rfl]
  have hcaplen : (("<b>" ++ "Title" ++ "</b>") ++ "\n\n"
      ++ (String.mk (List.replicate 597 'a') ++ "...")).length = 614 := by
    rw [String.length_append, String.length_append, String.length_append,
      String.length_append, String.length_append]
    rw [show (String.mk (List.replicate 597 'a')).length = 597 from
      List.length_replicate 597 'a']
    rfl
  rw [if_neg (by rw [hcaplen]; omega)]
  rw [show ("<b>" ++ "Title" ++ "</b>" : String) = "<b>Title</b>" from rfl]

/-- The 1000-character title evaluates to a caption of exactly 903
characters: the 1007-character bold title line is cut at 900, nothing is
stripped because the cut ends in a letter, and the ellipsis adds 3. -/
theorem build_caption_longTitle :
    build_caption entryLongTitle
      = String.mk ("<b>".data ++ List.replicate 897 'a') ++ "..." := by
  have hne : String.mk (List.replicate 1000 'a') ≠ "" := mk_replicate_ne_empty 1000 (by omega)
  have hesc : escape_html (String.mk (List.replicate 1000 'a'))
      = String.mk (List.replicate 1000 'a') := by
    apply escape_html_plain
    intro c hc
    rw [List.eq_of_mem_replicate hc]; decide
  have hcap : ("<b>" ++ String.mk (List.replicate 1000 'a') ++ "</b>").data
      = "<b>".data ++ (List.replicate 1000 'a' ++ "</b>".data) := by
    rw [data_append, data_append, List.append_assoc]
  have hcaplen : ("<b>" ++ String.mk (List.replicate 1000 'a') ++ "</b>").length = 1007 := by
    rw [String.length_append, String.length_append]
    rw [show (String.mk (List.replicate 1000 'a')).length = 1000 from
      List.length_replicate 1000 'a']
    rfl
  have hslice : pySlice ("<b>" ++ String.mk (List.replicate 1000 'a') ++ "</b>") 900
      = String.mk ("<b>".data ++ List.replicate 897 'a') := by
    show String.mk (List.take 900
      (("<b>" ++ String.mk (List.replicate 1000 'a') ++ "</b>").data)) = _
    rw [hcap, List.take_append_eq_append_take]
    rw [List.take_of_length_le (by simp : ("<b>".data : List Char).length ≤ 900)]
    rw [show (900 - ("<b>".data : List Char).length) = 897 from rfl]
    rw [List.take_append_of_le_length
      (by rw [List.length_replicate]; omega : 897 ≤ (List.replicate 1000 'a').length)]
    rw [List.take_replicate]
    norm_num
  have hrs : pyRstrip (String.mk ("<b>".data ++ List.replicate 897 'a'))
      = String.mk ("<b>".data ++ List.replicate 897 'a') := by
    show String.mk ((("<b>".data ++ List.replicate 897 'a').reverse.dropWhile isPyWs).reverse) = _
    rw [List.reverse_append, List.reverse_replicate]
    rw [show List.replicate 897 'a' ++ ("<b>".data : List Char).reverse
        = 'a' :: (List.replicate 896 'a' ++ ("<b>".data : List Char).reverse) by
      rw [show (897 : Nat) = 896 + 1 from rfl, List.replicate_succ, List.cons_append]]
    rw [show List.dropWhile isPyWs ('a' :: (List.replicate 896 'a'
        ++ ("<b>".data : List Char).reverse))
        = 'a' :: (List.replicate 896 'a' ++ ("<b>".data : List Char).reverse) from rfl]
    rw [← List.cons_append, ← List.replicate_succ]
    rw [show (896 + 1 : Nat) = 897 from rfl]
    rw [List.reverse_append, List.reverse_replicate, List.reverse_reverse]
  simp only [build_caption, entryLongTitle, Option.getD_some, Option.getD_none, pyGetD]
  rw [show pyOrS (String.mk (List.replicate 1000 'a')) "No title"
      = String.mk (List.replicate 1000 'a') from if_pos hne]
  rw [hesc]
  rw [show strip_tags (pyOrS "" (pyOrS "" "")) = "" from rfl]
  have hempty1 : ¬(("" : String) ≠ "" ∧ ("" : String).length > 600) := fun h => h.1 rfl
  have hempty2 : ¬(("" : String) ≠ "") := fun h => h rfl
  rw [if_neg hempty1, if_neg hempty2]
  rw [show pyOrS "" "" = "" from rfl]
  rw [if_neg hempty2]
  rw [show String.intercalate "\n\n"
      (["<b>" ++ String.mk (List.replicate 1000 'a') ++ "</b>"] ++ [] ++ [])
      = "<b>" ++ String.mk (List.replicate 1000 'a') ++ "</b>" from rfl]
  have hgt : ("<b>" ++ String.mk (List.replicate 1000 'a') ++ "</b>").length > 900 := by
    rw [hcaplen]; omega
  rw [if_pos hgt]
  rw [hslice, hrs]

theorem pyRstrip_length_le (s : String) : (pyRstrip s).length ≤ s.length := by
  show (String.mk (s.data.reverse.dropWhile isPyWs).reverse).length ≤ s.length
  have h1 : ((s.data.reverse.dropWhile isPyWs).reverse).length
      = (s.data.reverse.dropWhile isPyWs).length := List.length_reverse _
  have h2 : (s.data.reverse.dropWhile isPyWs).length ≤ s.data.reverse.length :=
    List.Sublist.length_le (List.dropWhile_sublist isPyWs)
  have h3 : s.data.reverse.length = s.data.length := List.length_reverse _
  calc (String.mk (s.data.reverse.dropWhile isPyWs).reverse).length
      = ((s.data.reverse.dropWhile isPyWs).reverse).length := rfl
    _ ≤ s.data.length := by rw [h1]; omega
    _ = s.length := rfl

theorem pySlice_length_le (s : String) (n : Nat) : (pySlice s n).length ≤ n := by
  show (s.data.take n).length ≤ n
  simp [List.length_take]

theorem caption_truncation_bound (caption : String) :
    (if caption.length > 900 then pyRstrip (pySlice caption 900) ++ "..." else caption).length
      ≤ 903 := by
  by_cases h : caption.length > 900
  · rw [if_pos h, String.length_append]
    have h1 := pyRstrip_length_le (pySlice caption 900)
    have h2 := pySlice_length_le caption 900
    have h3 : ("..." : String).length = 3 := rfl
    omega
  · rw [if_neg h]
    omega

/-- Claim C4, corrected: the assembled caption is at most 903 characters
(the 900-character cut may end in a non-whitespace character, in which case
the three-dot ellipsis pushes the total to 903); the 2000-character
plain-text summary instance does stay within 900 characters and ends in an
ellipsis marker. -/
theorem claim_C4 :
    (∀ e : Entry, (build_caption e).length ≤ 903) ∧
    (build_caption entrySummary2000).length ≤ 900 ∧
    endsInEllipsis (build_caption entrySummary2000) = true := by
  refine ⟨fun e => caption_truncation_bound _, ?_, ?_⟩
  · rw [build_caption_summary2000]
    rw [String.length_append, String.length_append, String.length_append]
    rw [show (String.mk (List.replicate 597 'a')).length = 597 from
      List.length_replicate 597 'a']
    rw [show ("<b>Title</b>" : String).length = 12 from rfl,
      show ("\n\n" : String).length = 2 from rfl,
      show ("..." : String).length = 3 from rfl]
    omega
  · rw [build_caption_summary2000]
    apply endsInEllipsis_of_data _ (("<b>Title</b>" ++ "\n\n").data ++ List.replicate 597 'a')
    rw [data_append, data_append, List.append_assoc]
    rfl

/-- Counterexample to claim C4 as stated: an entry whose caption reaches
903 characters, exceeding the claimed 900-character bound. -/
theorem claim_C4_cex :
    (build_caption entryLongTitle).length = 903 ∧
    ¬ ((build_caption entryLongTitle).length ≤ 900) := by
  have h : (build_caption entryLongTitle).length = 903 := by
    rw [build_caption_longTitle, String.length_append]
    rw [show (String.mk ("<b>".data ++ List.replicate 897 'a')).length
        = ("<b>".data ++ List.replicate 897 'a').length from rfl]
    rw [List.length_append, List.length_replicate]
    rfl
  exact ⟨h, by rw [h]; omega⟩

/-! ### Claim C7: delivery decision tree -/

/-- Claim C7: delivery makes exactly one or two outbound requests. With an
extracted image, a photo-with-caption attempt comes first and only on its
failure is the plain-text fallback sent, whose outcome is returned; without
an image, an HTML message attempt comes first with the same fallback; a
successful first attempt is returned with no fallback request. -/
theorem claim_C7 (net : Net) (k : Nat) (e : Entry) :
    ((send_telegram_entry net k e).reqs.length = 1
      ∨ (send_telegram_entry net k e).reqs.length = 2) ∧
    (∀ u, extract_first_image e = some u →
      (net k = true →
        send_telegram_entry net k e
          = { ok := true, k := k + 1, reqs := [Req.sendPhoto u (build_caption e)] }) ∧
      (net k = false →
        send_telegram_entry net k e
          = { ok := net (k + 1), k := k + 1 + 1,
              reqs := [Req.sendPhoto u (build_caption e),
                Req.sendMessagePlain (fallback_text e)] })) ∧
    (extract_first_image e = none →
      (net k = true →
        send_telegram_entry net k e
          = { ok := true, k := k + 1, reqs := [Req.sendMessageHTML (build_caption e)] }) ∧
      (net k = false →
        send_telegram_entry net k e
          = { ok := net (k + 1), k := k + 1 + 1,
              reqs := [Req.sendMessageHTML (build_caption e),
                Req.sendMessagePlain (fallback_text e)] })) := by
  refine ⟨?_, ?_, ?_⟩
  · cases himg : extract_first_image e <;> cases hnet : net k <;>
      simp [send_telegram_entry, send_telegram_photo, send_telegram_message_plain, himg, hnet]
  · intro u hu
    constructor <;> intro hnet <;>
      simp [send_telegram_entry, send_telegram_photo, send_telegram_message_plain, hu, hnet]
  · intro hu
    constructor <;> intro hnet <;>
      simp [send_telegram_entry, send_telegram_photo, send_telegram_message_plain, hu, hnet]

theorem claim_C7_witness :
    send_telegram_entry netAll 0 entryImg
      = { ok := true, k := 1, reqs := [Req.sendPhoto "https://x/1.jpg" (build_caption entryImg)] } ∧
    send_telegram_entry netNone 0 entryNoImg
      = { ok := false, k := 2,
          reqs := [Req.sendMessageHTML (build_caption entryNoImg),
            Req.sendMessagePlain (fallback_text entryNoImg)] } :=
  ⟨((claim_C7 netAll 0 entryImg).2.1 "https://x/1.jpg" (by decide)).1 rfl,
    ((claim_C7 netNone 0 entryNoImg).2.2 (by decide)).2 rfl⟩

/-! ### The delivery loop characterization shared by claims C1, C2, C6 -/

/-- The loop delivers exactly the successful prefix: sent lists its
identities in order, the in-memory set gains exactly those identities, and
the persistence flag is set exactly when the prefix is non-empty. -/
theorem deliver_loop_char (net : Net) :
    ∀ (l : List (String × Entry)) (k : Nat) (seen : Finset String),
      (deliver_loop net k seen l).sent = (l.take (okCount net k l)).map Prod.fst ∧
      (deliver_loop net k seen l).seen
        = seen ∪ ((l.take (okCount net k l)).map Prod.fst).toFinset ∧
      ((deliver_loop net k seen l).any_sent = true ↔ okCount net k l ≠ 0) := by
  intro l
  induction l with
  | nil =>
    intro k seen
    refine ⟨rfl, by simp [deliver_loop, okCount], by simp [deliver_loop, okCount]⟩
  | cons p rest ih =>
    intro k seen
    obtain ⟨iid, e⟩ := p
    by_cases h : deliver_ok net k e = true
    · have h' : (send_telegram_entry net k e).ok = true := h
      obtain ⟨ih1, ih2, ih3⟩ := ih (deliver_next net k e) (insert iid seen)
      have heq : deliver_loop net k seen ((iid, e) :: rest)
          = { seen := (deliver_loop net (deliver_next net k e) (insert iid seen) rest).seen,
              any_sent := true,
              k := (deliver_loop net (deliver_next net k e) (insert iid seen) rest).k,
              sent := iid ::
                (deliver_loop net (deliver_next net k e) (insert iid seen) rest).sent } := by
        simp only [deliver_loop, deliver_next]
        rw [if_pos h']
      have hcnt : okCount net k ((iid, e) :: rest)
          = okCount net (deliver_next net k e) rest + 1 := by
        simp only [okCount]
        rw [if_pos h]
      rw [heq, hcnt]
      refine ⟨?_, ?_, by simp⟩
      · simp only [List.take_succ_cons, List.map_cons]
        rw [ih1]
      · simp only [List.take_succ_cons, List.map_cons, List.toFinset_cons]
        rw [ih2, Finset.union_insert, Finset.insert_union]
    · have h0 : deliver_ok net k e = false := by
        revert h
        cases hob : deliver_ok net k e <;> simp
      have h' : (send_telegram_entry net k e).ok = false := h0
      have heq : deliver_loop net k seen ((iid, e) :: rest)
          = { seen := seen, any_sent := false,
              k := (send_telegram_entry net k e).k, sent := [] } := by
        simp only [deliver_loop]
        rw [if_neg (by rw [h']; simp)]
      have hcnt : okCount net k ((iid, e) :: rest) = 0 := by
        simp only [okCount]
        rw [if_neg (by rw [h0]; simp)]
      rw [heq, hcnt]
      simp

/-- On success the loop continues and on failure it returns at once; sent is
thus non-empty exactly when the flag that triggers persistence is set. -/
theorem deliver_loop_any_sent (net : Net) :
    ∀ (l : List (String × Entry)) (k : Nat) (seen : Finset String),
      ((deliver_loop net k seen l).any_sent = true
        ↔ (deliver_loop net k seen l).sent ≠ []) := by
  intro l
  induction l with
  | nil => intro k seen; simp [deliver_loop]
  | cons p rest ih =>
    intro k seen
    obtain ⟨iid, e⟩ := p
    by_cases h : (send_telegram_entry net k e).ok = true
    · have heq : deliver_loop net k seen ((iid, e) :: rest)
          = { seen := (deliver_loop net (deliver_next net k e) (insert iid seen) rest).seen,
              any_sent := true,
              k := (deliver_loop net (deliver_next net k e) (insert iid seen) rest).k,
              sent := iid ::
                (deliver_loop net (deliver_next net k e) (insert iid seen) rest).sent } := by
        simp only [deliver_loop, deliver_next]
        rw [if_pos h]
      rw [heq]
      simp
    · have h' : (send_telegram_entry net k e).ok = false := by
        revert h
        cases hob : (send_telegram_entry net k e).ok <;> simp
      have heq : deliver_loop net k seen ((iid, e) :: rest)
          = { seen := seen, any_sent := false,
              k := (send_telegram_entry net k e).k, sent := [] } := by
        simp only [deliver_loop]
        rw [if_neg (by rw [h']; simp)]
      rw [heq]
      simp

/-! ### Claim C1: mark-iff-success and halt on first failure -/

/-- Claim C1: an identity enters the in-memory seen set exactly when its
delivery succeeded — the loop result adds precisely the identities of the
successful prefix and sent lists them; on a delivery failure (the oracle
failing both the attempt and its fallback) the loop stops at once, leaving
the set untouched; in the three-entry batch whose second entry fails
(fallback included), entry one is marked and persisted while entries two
and three are neither marked nor in the saved state. -/
theorem claim_C1 :
    (∀ (net : Net) (k : Nat) (seen : Finset String) (l : List (String × Entry)),
      (deliver_loop net k seen l).sent = (l.take (okCount net k l)).map Prod.fst ∧
      (deliver_loop net k seen l).seen
        = seen ∪ ((l.take (okCount net k l)).map Prod.fst).toFinset) ∧
    (∀ (net : Net) (k : Nat) (seen : Finset String) (iid : String) (e : Entry)
        (rest : List (String × Entry)),
      deliver_ok net k e = false →
      deliver_loop net k seen ((iid, e) :: rest)
        = { seen := seen, any_sent := false, k := deliver_next net k e, sent := [] }) ∧
    (run_main netFirstOnly FileState.absent [entryBatch1, entryBatch2, entryBatch3]).file
      = FileState.good ["https://x/1"] ∧
    (run_main netFirstOnly FileState.absent [entryBatch1, entryBatch2, entryBatch3]).loop.seen
      = {"https://x/1"} ∧
    "https://x/2" ∉
      (run_main netFirstOnly FileState.absent [entryBatch1, entryBatch2, entryBatch3]).loop.seen ∧
    "https://x/3" ∉
      (run_main netFirstOnly FileState.absent [entryBatch1, entryBatch2, entryBatch3]).loop.seen := by
  refine ⟨?_, ?_, by decide, by decide, by decide, by decide⟩
  · intro net k seen l
    obtain ⟨h1, h2, _⟩ := deliver_loop_char net l k seen
    exact ⟨h1, h2⟩
  · intro net k seen iid e rest h
    have h' : (send_telegram_entry net k e).ok = false := h
    simp only [deliver_loop, deliver_next]
    rw [if_neg (by rw [h']; simp)]

theorem claim_C1_witness :
    deliver_loop netFirstOnly 1 ∅ [("https://x/2", entryBatch2)]
      = { seen := ∅, any_sent := false,
          k := deliver_next netFirstOnly 1 entryBatch2, sent := [] } :=
  claim_C1.2.1 netFirstOnly 1 ∅ "https://x/2" entryBatch2 [] (by decide)

/-! ### Claim C2: persist exactly when something was delivered -/

/-- Claim C2: the state file is written if and only if at least one delivery
in the batch succeeded (sent is non-empty); when nothing succeeded the file
value is exactly the one loaded, untouched. -/
theorem claim_C2 (net : Net) (fs : FileState) (entries : List Entry) :
    ((run_main net fs entries).wrote = true
      ↔ (run_main net fs entries).loop.sent ≠ []) ∧
    ((run_main net fs entries).wrote = true →
      (run_main net fs entries).file = save_seen (run_main net fs entries).loop.seen) ∧
    ((run_main net fs entries).wrote = false → (run_main net fs entries).file = fs) := by
  refine ⟨?_, ?_, ?_⟩
  · exact deliver_loop_any_sent net
      (sortEntries (newEntries (load_seen fs).1 entries)) 0 (load_seen fs).1
  · intro h
    have h' : (deliver_loop net 0 (load_seen fs).1
        (sortEntries (newEntries (load_seen fs).1 entries))).any_sent = true := h
    show (if (deliver_loop net 0 (load_seen fs).1
        (sortEntries (newEntries (load_seen fs).1 entries))).any_sent then _ else fs) = _
    rw [if_pos h']
    rfl
  · intro h
    have h' : (deliver_loop net 0 (load_seen fs).1
        (sortEntries (newEntries (load_seen fs).1 entries))).any_sent = false := h
    show (if (deliver_loop net 0 (load_seen fs).1
        (sortEntries (newEntries (load_seen fs).1 entries))).any_sent then _ else fs) = fs
    rw [h']
    simp

theorem claim_C2_witness :
    (run_main netNone FileState.absent [entryBatch1]).file = FileState.absent ∧
    (run_main netAll FileState.absent [entryBatch1]).file
      = save_seen (run_main netAll FileState.absent [entryBatch1]).loop.seen :=
  ⟨(claim_C2 netNone FileState.absent [entryBatch1]).2.2 (by decide),
    (claim_C2 netAll FileState.absent [entryBatch1]).2.1 (by decide)⟩

/-! ### Claim C6: chronological delivery order -/

theorem insertEntry_perm (p : String × Entry) :
    ∀ l : List (String × Entry), List.Perm (insertEntry p l) (p :: l) := by
  intro l
  induction l with
  | nil => simp [insertEntry]
  | cons q qs ih =>
    by_cases h : sort_key q.2 < sort_key p.2
    · simp only [insertEntry, h, if_pos]
      exact (List.Perm.cons q ih).trans (List.Perm.swap p q qs)
    · simp [insertEntry, h]

theorem sortEntries_perm : ∀ l : List (String × Entry), List.Perm (sortEntries l) l := by
  intro l
  induction l with
  | nil => simp [sortEntries]
  | cons p ps ih =>
    exact (insertEntry_perm p (sortEntries ps)).trans (List.Perm.cons p ih)

theorem insertEntry_sorted (p : String × Entry) :
    ∀ l : List (String × Entry),
      l.Pairwise (fun a b => sort_key a.2 ≤ sort_key b.2) →
      (insertEntry p l).Pairwise (fun a b => sort_key a.2 ≤ sort_key b.2) := by
  intro l
  induction l with
  | nil => intro _; simp [insertEntry]
  | cons q qs ih =>
    intro h
    rw [List.pairwise_cons] at h
    by_cases hq : sort_key q.2 < sort_key p.2
    · simp only [insertEntry, hq, if_pos]
      rw [List.pairwise_cons]
      refine ⟨?_, ih h.2⟩
      intro y hy
      rcases List.mem_cons.mp ((insertEntry_perm p qs).mem_iff.mp hy) with hy2 | hy2
      · rw [hy2]
        exact Nat.le_of_lt hq
      · exact h.1 y hy2
    · simp only [insertEntry, hq, if_neg, if_false]
      rw [List.pairwise_cons]
      refine ⟨?_, List.pairwise_cons.mpr h⟩
      intro y hy
      rcases List.mem_cons.mp hy with hy2 | hy2
      · rw [hy2]
        exact Nat.le_of_not_lt hq
      · exact Nat.le_trans (Nat.le_of_not_lt hq) (h.1 y hy2)

theorem sortEntries_sorted : ∀ l : List (String × Entry),
    (sortEntries l).Pairwise (fun a b => sort_key a.2 ≤ sort_key b.2) := by
  intro l
  induction l with
  | nil => simp [sortEntries]
  | cons p ps ih => exact insertEntry_sorted p (sortEntries ps) ih

/-- Claim C6: new entries are delivered ascending by the key parsed publish
time, else parsed update time, else the epoch sentinel: the sorted batch is
a permutation of the classified entries, pairwise ascending in the key, and
the delivered identities are a prefix of it; the entry with no time
information keys at the epoch and, in the scenario with feed order T2,
missing, T3, delivery order is T1, T2, T3. -/
theorem claim_C6 :
    (∀ l : List (String × Entry),
      (sortEntries l).Pairwise (fun a b => sort_key a.2 ≤ sort_key b.2) ∧
      List.Perm (sortEntries l) l) ∧
    (∀ (net : Net) (fs : FileState) (entries : List Entry),
      (run_main net fs entries).loop.sent
        = ((sortEntries (newEntries (load_seen fs).1 entries)).map Prod.fst).take
            (okCount net 0 (sortEntries (newEntries (load_seen fs).1 entries)))) ∧
    sort_key entryT1 = 0 ∧
    (run_main netAll FileState.absent [entryT2, entryT1, entryT3]).loop.sent
      = ["https://x/1", "https://x/2", "https://x/3"] := by
  refine ⟨fun l => ⟨sortEntries_sorted l, sortEntries_perm l⟩, ?_, rfl, by decide⟩
  intro net fs entries
  obtain ⟨h1, _, _⟩ := deliver_loop_char net
    (sortEntries (newEntries (load_seen fs).1 entries)) 0 (load_seen fs).1
  rw [show (run_main net fs entries).loop
      = deliver_loop net 0 (load_seen fs).1
          (sortEntries (newEntries (load_seen fs).1 entries)) from rfl]
  rw [h1, List.map_take]

/-! ### Claim C10: classification uses only the loaded set -/

/-- Claim C10: within a batch an entry is new exactly when its identity is
outside the set loaded at batch start — the classification is a pure filter
over the loaded set, unaffected by identities marked during the batch — so
two feed entries resolving to the same fresh identity are both delivered in
that batch. -/
theorem claim_C10 :
    (∀ (seen : Finset String) (entries : List Entry),
      newEntries seen entries
        = (entries.filter (fun e => decide (make_item_id e ∉ seen))).map
            (fun e => (make_item_id e, e))) ∧
    (run_main netAll FileState.absent [entryDupA, entryDupB]).loop.sent
      = ["https://x/D", "https://x/D"] ∧
    (run_main netAll FileState.absent [entryDupA, entryDupB]).loop.seen
      = {"https://x/D"} := by
  refine ⟨?_, by decide, by decide⟩
  intro seen entries
  unfold newEntries
  rw [List.filter_map]
  rfl

end RssBot
